import Mathlib

/-!
Shallow embedding of the pyjanggi board core.

Sources embedded here:
- src/janggi/base/board.py   (class Board)
- src/classes/piece.py       (class PieceType, class Piece with possibleMoves)
- src/classes/grid.py        (class Grid)

Modules src/janggi/constants.py, src/janggi/base/{piece,camp,formation,location}.py
and src/classes/{constant,camp}.py are not present in the sources; the
definitions below that correspond to them are modelled from the spec and
carry a doc comment saying so.
-/

set_option autoImplicit false

namespace Janggi

/-- Modelled from the spec: the missing module src/janggi/base/camp.py.
Spec section 3: Camp is the enumeration CHO, HAN, UNDECIDED. -/
inductive Camp where
  | CHO
  | HAN
  | UNDECIDED
deriving DecidableEq, Repr, Fintype

/-- Modelled from the spec: the missing module src/janggi/base/formation.py.
Spec section 3: Formation is the enumeration OUTER_ELEPHANT, LEFT_ELEPHANT,
RIGHT_ELEPHANT, INNER_ELEPHANT, UNDECIDED. -/
inductive Formation where
  | OUTER_ELEPHANT
  | LEFT_ELEPHANT
  | RIGHT_ELEPHANT
  | INNER_ELEPHANT
  | UNDECIDED
deriving DecidableEq, Repr, Fintype

/-- PieceType enumeration. Declared identically in src/classes/piece.py
(GENERAL..SOLDIER); the missing src/janggi/base/piece.py declares the same
seven kinds per the spec. -/
inductive PieceType where
  | GENERAL
  | GUARD
  | HORSE
  | ELEPHANT
  | CHARIOT
  | CANNON
  | SOLDIER
deriving DecidableEq, Repr, Fintype

/-- Modelled from the spec: the missing module src/janggi/base/piece.py.
Spec section 3: a Piece is (pieceType, camp), camp assignable after creation
and not necessarily at construction, hence an optional camp (Python None).
board.py constructs pieces both as Piece(piece_type) and Piece(piece_type, camp). -/
structure Piece where
  pieceType : PieceType
  camp : Option Camp
deriving DecidableEq, Repr, Fintype

/-- Modelled from the spec: the missing module src/janggi/base/location.py.
Spec section 3: Coordinate is an integer pair with invariant 0 <= row <= 9,
0 <= col <= 8 (10x9 board), so rows are Fin 10 and columns Fin 9. -/
structure Location where
  row : Fin 10
  col : Fin 9
deriving DecidableEq, Repr, Fintype

/-- Board from src/janggi/base/board.py: metadata plus a 10x9 grid whose
cells hold a Piece or None (numpy array of object references; the grid is
modelled by its cell contents). -/
structure Board where
  cho_formation : Formation
  han_formation : Formation
  bottom_camp : Camp
  grid : Fin 10 → Fin 9 → Option Piece

/-- Board.__init__: all cells are None. -/
def Board.empty (cho_formation han_formation : Formation) (bottom_camp : Camp) : Board :=
  ⟨cho_formation, han_formation, bottom_camp, fun _ _ => none⟩

/-- Board.get: the piece located at (row, col), possibly None. -/
def Board.get (b : Board) (row : Fin 10) (col : Fin 9) : Option Piece :=
  b.grid row col

/-- Board.put: write piece at (row, col), overwriting. -/
def Board.put (b : Board) (row : Fin 10) (col : Fin 9) (piece : Piece) : Board :=
  { b with grid := fun r c => if r = row ∧ c = col then some piece else b.grid r c }

/-- Board.remove: set cell (row, col) to None. -/
def Board.remove (b : Board) (row : Fin 10) (col : Fin 9) : Board :=
  { b with grid := fun r c => if r = row ∧ c = col then none else b.grid r c }

/-- Board.move: assert the origin is occupied (None result models the failed
assertion), record the piece at dest, write the origin piece at dest, then
empty the origin; return the recorded dest piece and the updated board. -/
def Board.move (b : Board) (origin dest : Location) : Option (Option Piece × Board) :=
  match b.get origin.row origin.col with
  | none => none
  | some piece =>
    let piece_to_remove := b.get dest.row dest.col
    some (piece_to_remove, (b.put dest.row dest.col piece).remove origin.row origin.col)

/-- Board.merge: for every cell, if the other board has an occupant there,
overwrite the own cell with it; otherwise keep the own cell. -/
def Board.merge (b other : Board) : Board :=
  { b with grid := fun r c =>
      match other.grid r c with
      | some p => some p
      | none => b.grid r c }

/-- Row reflection r to 9 - r used by np.flip on a 10-row grid. -/
def revRow (r : Fin 10) : Fin 10 := ⟨9 - r.val, by omega⟩

/-- Column reflection c to 8 - c used by np.flip on a 9-column grid. -/
def revCol (c : Fin 9) : Fin 9 := ⟨8 - c.val, by omega⟩

/-- Board.flip: np.flip reverses the grid along both axes, so the new cell
(r, c) holds the old cell (9 - r, 8 - c). -/
def Board.flip (b : Board) : Board :=
  { b with grid := fun r c => b.grid (revRow r) (revCol c) }

/-- Board.mark_camp: every occupied cell gets its piece camp set to the
given camp (value-level effect of the in-place Python mutation). -/
def Board.mark_camp (b : Board) (camp : Camp) : Board :=
  { b with grid := fun r c => (b.grid r c).map fun p => { p with camp := some camp } }

/-- Board._generate_half_board: soldiers, cannons, general, guards and
chariots at fixed squares, plus the formation-dependent horse/elephant
placement on rows 9 columns 1, 2, 6, 7 (UNDECIDED leaves those flanks empty). -/
def Board._generate_half_board (formation : Formation) : Board :=
  let board := Board.empty Formation.UNDECIDED Formation.UNDECIDED Camp.UNDECIDED
  let board := board.put 6 0 ⟨PieceType.SOLDIER, none⟩
  let board := board.put 6 2 ⟨PieceType.SOLDIER, none⟩
  let board := board.put 6 4 ⟨PieceType.SOLDIER, none⟩
  let board := board.put 6 6 ⟨PieceType.SOLDIER, none⟩
  let board := board.put 6 8 ⟨PieceType.SOLDIER, none⟩
  let board := board.put 7 1 ⟨PieceType.CANNON, none⟩
  let board := board.put 7 7 ⟨PieceType.CANNON, none⟩
  let board := board.put 8 4 ⟨PieceType.GENERAL, none⟩
  let board := board.put 9 3 ⟨PieceType.GUARD, none⟩
  let board := board.put 9 5 ⟨PieceType.GUARD, none⟩
  let board := board.put 9 0 ⟨PieceType.CHARIOT, none⟩
  let board := board.put 9 8 ⟨PieceType.CHARIOT, none⟩
  match formation with
  | Formation.OUTER_ELEPHANT =>
    ((((board.put 9 1 ⟨PieceType.ELEPHANT, none⟩).put 9 2 ⟨PieceType.HORSE, none⟩).put
      9 6 ⟨PieceType.HORSE, none⟩).put 9 7 ⟨PieceType.ELEPHANT, none⟩)
  | Formation.LEFT_ELEPHANT =>
    ((((board.put 9 1 ⟨PieceType.ELEPHANT, none⟩).put 9 2 ⟨PieceType.HORSE, none⟩).put
      9 6 ⟨PieceType.ELEPHANT, none⟩).put 9 7 ⟨PieceType.HORSE, none⟩)
  | Formation.RIGHT_ELEPHANT =>
    ((((board.put 9 1 ⟨PieceType.HORSE, none⟩).put 9 2 ⟨PieceType.ELEPHANT, none⟩).put
      9 6 ⟨PieceType.HORSE, none⟩).put 9 7 ⟨PieceType.ELEPHANT, none⟩)
  | Formation.INNER_ELEPHANT =>
    ((((board.put 9 1 ⟨PieceType.HORSE, none⟩).put 9 2 ⟨PieceType.ELEPHANT, none⟩).put
      9 6 ⟨PieceType.ELEPHANT, none⟩).put 9 7 ⟨PieceType.HORSE, none⟩)
  | Formation.UNDECIDED => board

/-- All board squares in row-major order (row 0 to 9, each column 0 to 8),
the iteration order of the nested loops of board.py. -/
def allLocations : List Location :=
  (List.finRange 10).flatMap fun r => (List.finRange 9).map fun c => ⟨r, c⟩

/-- Loop body of Board.is_check for one square: an occupied square whose
piece camp differs from the given camp is appended to the enemy list;
otherwise (a piece of the given camp) the square is recorded as the general
location when the piece is the camp general. The general test in board.py
checks whether str(piece) contains one of the two general glyphs; the glyph
table lives in the missing src/janggi/base/piece.py, so the test is modelled
from the spec: the general is located via its distinguishing kind tag,
PieceType.GENERAL (spec section 4.4 and glossary). -/
def checkStep (b : Board) (camp : Camp) (acc : Option Location × List Location)
    (loc : Location) : Option Location × List Location :=
  match b.get loc.row loc.col with
  | none => acc
  | some p =>
    if p.camp ≠ some camp then (acc.1, acc.2 ++ [loc])
    else if p.pieceType = PieceType.GENERAL then (some loc, acc.2)
    else acc

/-- Board.is_check: scan every square in row-major order with checkStep,
starting from no general location (Python initialises king_location to an
empty list, modelled as None) and no enemy locations. -/
def Board.is_check (b : Board) (camp : Camp) : Option Location × List Location :=
  allLocations.foldl (checkStep b camp) (none, [])

/-- Does the square hold a piece whose camp differs from the given camp
(the membership test for the enemy list of Board.is_check). -/
def enemyAt (b : Board) (camp : Camp) (l : Location) : Bool :=
  match b.get l.row l.col with
  | some p => decide (p.camp ≠ some camp)
  | none => false

/-- Does the square hold the general of the given camp (the test that sets
king_location in Board.is_check). -/
def campGeneralAt (b : Board) (camp : Camp) (l : Location) : Bool :=
  match b.get l.row l.col with
  | some p => decide (p.camp = some camp) && decide (p.pieceType = PieceType.GENERAL)
  | none => false

/-- Board.full_board_from_formations: build both half boards, mark their
camps, flip the half of the camp that is not at the bottom, and merge the
cho half then the han half onto an empty board. -/
def Board.full_board_from_formations
    (cho_formation han_formation : Formation) (player : Camp) : Board :=
  let board := Board.empty cho_formation han_formation player
  let cho_half_board := Board._generate_half_board cho_formation
  let han_half_board := Board._generate_half_board han_formation
  let cho_half_board := cho_half_board.mark_camp Camp.CHO
  let han_half_board := han_half_board.mark_camp Camp.HAN
  let (cho_half_board, han_half_board) :=
    if player = Camp.CHO then (cho_half_board, han_half_board.flip)
    else (cho_half_board.flip, han_half_board)
  (board.merge cho_half_board).merge han_half_board

/-- Errors that can escape Board.board_from_FEN in board.py. The Python code
raises plain IndexError / KeyError exceptions; the constructors record which
statement raises. -/
inductive FENError where
  | noToken
  | missingRow
  | badChar (c : Char)
  | colOverflow
deriving DecidableEq, Repr

/-- The piece_map dictionary of board_from_FEN, looked up at char.lower():
k, a, e, h, c, r, p map to the seven piece kinds, anything else is a KeyError. -/
def pieceFromChar (c : Char) : Option PieceType :=
  if c.toLower = 'k' then some PieceType.GENERAL
  else if c.toLower = 'a' then some PieceType.GUARD
  else if c.toLower = 'e' then some PieceType.ELEPHANT
  else if c.toLower = 'h' then some PieceType.HORSE
  else if c.toLower = 'c' then some PieceType.CANNON
  else if c.toLower = 'r' then some PieceType.CHARIOT
  else if c.toLower = 'p' then some PieceType.SOLDIER
  else none

/-- Python str.split(sep) for a single separator character: splits at every
occurrence and keeps empty fragments, so the result is never empty. -/
def splitOnChar (sep : Char) : List Char → List (List Char)
  | [] => [[]]
  | c :: rest =>
    match splitOnChar sep rest with
    | [] => [[]]
    | cur :: others => if c = sep then [] :: cur :: others else (c :: cur) :: others

/-- Python str.split() with no argument, restricted to the first element:
drop leading whitespace; None when nothing remains (parts[0] would raise an
IndexError), otherwise the run of characters up to the next whitespace. -/
def firstToken (l : List Char) : Option (List Char) :=
  let l1 := l.dropWhile fun c => c.isWhitespace
  if l1 = [] then none else some (l1.takeWhile fun c => ¬ c.isWhitespace)

/-- The inner character loop of board_from_FEN for one row: a digit advances
col by its value, any other character must be in piece_map (else KeyError),
is placed at (row, col) — an IndexError when col is 9 or more, since the
numpy row has 9 cells — with camp CHO when uppercase and HAN otherwise, and
advances col by one. -/
def placeRow (b : Board) (row : Fin 10) : List Char → Nat → Except FENError Board
  | [], _ => Except.ok b
  | ch :: rest, col =>
    if ch.isDigit then placeRow b row rest (col + (ch.toNat - 48))
    else
      match pieceFromChar ch with
      | none => Except.error (FENError.badChar ch)
      | some piece_type =>
        if h : col < 9 then
          placeRow
            (b.put row ⟨col, h⟩
              ⟨piece_type, some (if ch.isUpper then Camp.CHO else Camp.HAN)⟩)
            row rest (col + 1)
        else Except.error FENError.colOverflow

/-- The board portion of a FEN string: the first whitespace-delimited token
split at every slash (rows[...] in board_from_FEN); empty when the string
has no token at all. -/
def boardRows (fen : String) : List (List Char) :=
  match firstToken fen.toList with
  | none => []
  | some tok => splitOnChar '/' tok

/-- Board.board_from_FEN: build the formation board, clear every cell, take
parts[0] of the whitespace-split input (IndexError when absent), split it at
slashes, and for each row index 0..9 process rows[row] (IndexError when there
are fewer rows) with the character loop. Rows beyond the tenth are ignored
and no row-sum validation is performed. -/
def Board.board_from_FEN (cho_formation han_formation : Formation) (fen : String)
    (player : Camp) : Except FENError Board :=
  let board := Board.full_board_from_formations cho_formation han_formation player
  let board := { board with grid := fun _ _ => none }
  match firstToken fen.toList with
  | none => Except.error FENError.noToken
  | some tok =>
    let rows := splitOnChar '/' tok
    (List.finRange 10).foldlM
      (fun b r =>
        match rows.get? r.val with
        | none => Except.error FENError.missingRow
        | some rowChars => placeRow b r rowChars 0)
      board

/-- Spec-side helper: the camp opposing a given camp (the non-bottom camp
when the argument is the bottom camp). -/
def otherCamp : Camp → Camp
  | Camp.CHO => Camp.HAN
  | Camp.HAN => Camp.CHO
  | Camp.UNDECIDED => Camp.UNDECIDED

/-- Spec-side cell count of one FEN row, following the claim wording: a
digit contributes its value (a run of that many empty cells), any other
character contributes one cell. -/
def rowCellSum : List Char → Nat
  | [] => 0
  | c :: rest => (if c.isDigit then c.toNat - 48 else 1) + rowCellSum rest

/-- Spec-side well-formedness of one FEN row: every character is a digit or
a recognized piece letter, and the cells sum to at most nine. -/
def goodRowB (row : List Char) : Bool :=
  row.all (fun c => c.isDigit || (pieceFromChar c).isSome) && decide (rowCellSum row ≤ 9)

end Janggi

namespace Classes

/-- Modelled from the spec: the missing module src/classes/constant.py.
Spec section 3: rows range over [0, 9] and columns over [0, 8]. -/
def MIN_ROW : Int := 0

/-- Modelled from the spec: the missing module src/classes/constant.py. -/
def MAX_ROW : Int := 9

/-- Modelled from the spec: the missing module src/classes/constant.py. -/
def MIN_COL : Int := 0

/-- Modelled from the spec: the missing module src/classes/constant.py. -/
def MAX_COL : Int := 8

/-- Grid from src/classes/grid.py: an integer pair. -/
structure Grid where
  row : Int
  col : Int
deriving DecidableEq, Repr

/-- Grid.__init__: store row and col, then raise when row is below MIN_ROW or
above MAX_ROW, then when col is below MIN_COL or above MAX_COL; the error
strings mirror the exception messages. -/
def Grid.make (row col : Int) : Except String Grid :=
  if row < MIN_ROW ∨ row > MAX_ROW then Except.error "Grid row is out of range"
  else if col < MIN_COL ∨ col > MAX_COL then Except.error "Grid column is out of range"
  else Except.ok ⟨row, col⟩

/-- Piece from src/classes/piece.py: a piece type plus a camp that starts as
None and is set by setCamp. -/
structure Piece where
  pieceType : Janggi.PieceType
  camp : Option Janggi.Camp
deriving DecidableEq, Repr

/-- Piece.possibleMoves from src/classes/piece.py: the eight two-step horse
patterns, the eight three-step elephant patterns, and the empty list for
every other piece type; each step is a (row delta, col delta) pair. -/
def Piece.possibleMoves (p : Piece) : List (List (Int × Int)) :=
  match p.pieceType with
  | Janggi.PieceType.HORSE =>
    [[(0, 1), (-1, 1)],
     [(0, 1), (1, 1)],
     [(1, 0), (1, 1)],
     [(1, 0), (1, -1)],
     [(0, -1), (-1, -1)],
     [(0, -1), (1, -1)],
     [(-1, 0), (-1, 1)],
     [(-1, 0), (-1, -1)]]
  | Janggi.PieceType.ELEPHANT =>
    [[(0, 1), (-1, 1), (-1, 1)],
     [(0, 1), (1, 1), (1, 1)],
     [(1, 0), (1, 1), (1, 1)],
     [(1, 0), (1, -1), (1, -1)],
     [(0, -1), (-1, -1), (-1, -1)],
     [(0, -1), (1, -1), (1, -1)],
     [(-1, 0), (-1, 1), (-1, 1)],
     [(-1, 0), (-1, -1), (-1, -1)]]
  | _ => []

end Classes

namespace RefModel

/-!
Reference-level model of Board used for the copy-independence claim.

numpy arrays of Python objects hold references: Board.copy duplicates the
array (ndarray.copy) but not the Piece objects it references, and
Board.mark_camp mutates those Piece objects in place. To state what a
mutation of a copy does to the original, pieces live in a heap addressed by
identity, and a grid holds piece identities.
-/

open Janggi (Camp Piece PieceType Location)

/-- A heap of Piece objects addressed by object identity. -/
def Heap : Type := Nat → Piece

/-- A grid holding references into the heap (None for an empty cell). -/
def RefGrid : Type := Fin 10 → Fin 9 → Option Nat

/-- The cell contents an observer reads off a board: each referenced piece
dereferenced through the heap. -/
def observe (h : Heap) (g : RefGrid) (r : Fin 10) (c : Fin 9) : Option Piece :=
  (g r c).map h

/-- Board.copy at reference level: ndarray.copy duplicates the array, so the
copy has an equal grid of the same piece references and shares the heap. -/
def copyOf (g : RefGrid) : RefGrid := fun r c => g r c

/-- A mutation step applied to one board (its grid) over the shared heap:
the grid operations of board.py rewrite only the array, mark_camp rewrites
only the referenced Piece objects. -/
def putRef (h : Heap) (g : RefGrid) (row : Fin 10) (col : Fin 9) (id : Nat) :
    Heap × RefGrid :=
  (h, fun r c => if r = row ∧ c = col then some id else g r c)

/-- Board.remove on the reference grid. -/
def removeRef (h : Heap) (g : RefGrid) (row : Fin 10) (col : Fin 9) :
    Heap × RefGrid :=
  (h, fun r c => if r = row ∧ c = col then none else g r c)

/-- Board.move on the reference grid: same steps as Board.move, on
references. -/
def moveRef (h : Heap) (g : RefGrid) (origin dest : Location) :
    Option (Option Nat × (Heap × RefGrid)) :=
  match g origin.row origin.col with
  | none => none
  | some id =>
    let captured := g dest.row dest.col
    let g1 := fun r c => if r = dest.row ∧ c = dest.col then some id else g r c
    let g2 := fun r c => if r = origin.row ∧ c = origin.col then none else g1 r c
    some (captured, (h, g2))

/-- Board.merge on the reference grid: occupied cells of the other board
overwrite, empty ones leave the cell untouched. -/
def mergeRef (h : Heap) (g other : RefGrid) : Heap × RefGrid :=
  (h, fun r c => match other r c with | some id => some id | none => g r c)

/-- Board.flip on the reference grid. -/
def flipRef (h : Heap) (g : RefGrid) : Heap × RefGrid :=
  (h, fun r c => g (Janggi.revRow r) (Janggi.revCol c))

/-- Board.mark_camp at reference level: every Piece object referenced by the
grid has its camp field overwritten in place, so the heap changes at every
identity the grid holds. -/
def markCampRef (h : Heap) (g : RefGrid) (camp : Camp) : Heap × RefGrid :=
  (fun id => if ∃ r c, g r c = some id then { h id with camp := some camp } else h id, g)

/-- A concrete heap holding a CHO horse at every identity, for the
copy-independence scenario. -/
def sampleHeap : Heap := fun _ => ⟨PieceType.HORSE, some Camp.CHO⟩

/-- A concrete grid referencing piece identity 0 at square (0, 0) only. -/
def sampleGrid : RefGrid := fun r c => if r.val = 0 ∧ c.val = 0 then some 0 else none

end RefModel

namespace Janggi

theorem get_put_self (b : Board) (row : Fin 10) (col : Fin 9) (p : Piece) :
    (b.put row col p).get row col = some p := by
  simp [Board.put, Board.get]

theorem get_put_ne (b : Board) (row : Fin 10) (col : Fin 9) (p : Piece)
    (r : Fin 10) (c : Fin 9) (h : ¬(r = row ∧ c = col)) :
    (b.put row col p).get r c = b.get r c := by
  simp [Board.put, Board.get, h]

theorem get_remove_self (b : Board) (row : Fin 10) (col : Fin 9) :
    (b.remove row col).get row col = none := by
  simp [Board.remove, Board.get]

theorem get_remove_ne (b : Board) (row : Fin 10) (col : Fin 9)
    (r : Fin 10) (c : Fin 9) (h : ¬(r = row ∧ c = col)) :
    (b.remove row col).get r c = b.get r c := by
  simp [Board.remove, Board.get, h]

theorem location_ne_iff (l m : Location) : l ≠ m ↔ ¬(l.row = m.row ∧ l.col = m.col) := by
  cases l
  cases m
  simp [Location.mk.injEq]

theorem revRow_revRow (r : Fin 10) : revRow (revRow r) = r := by
  apply Fin.ext
  simp only [revRow]
  omega

theorem revCol_revCol (c : Fin 9) : revCol (revCol c) = c := by
  apply Fin.ext
  simp only [revCol]
  omega

/-- C10: flip is an involution, and a single flip moves the occupant of
(r, c) to (9 - r, 8 - c): the occupant read back at the reflected square is
the occupant the original board had at (r, c). -/
theorem flip_involution (b : Board) (r : Fin 10) (c : Fin 9) :
    (b.flip.flip).get r c = b.get r c ∧ (b.flip).get (revRow r) (revCol c) = b.get r c := by
  constructor
  · simp [Board.flip, Board.get, revRow_revRow, revCol_revCol]
  · simp [Board.flip, Board.get, revRow_revRow, revCol_revCol]

/-- C7: Coordinate (Grid) construction succeeds exactly when the row lies in
[0, 9] and the column in [0, 8]; outside those ranges it fails with the
out-of-range error. -/
theorem grid_make_range (row col : Int) :
    (Classes.Grid.make row col).isOk = true ↔ (0 ≤ row ∧ row ≤ 9 ∧ 0 ≤ col ∧ col ≤ 8) := by
  unfold Classes.Grid.make Classes.MIN_ROW Classes.MAX_ROW Classes.MIN_COL Classes.MAX_COL
  split
  · simp [Except.isOk, Except.toBool]
    omega
  · split
    · simp [Except.isOk, Except.toBool]
      omega
    · simp [Except.isOk, Except.toBool]
      omega

/-- C4: possibleMoves of a HORSE piece is exactly 8 patterns of 2 steps
each; of an ELEPHANT piece exactly 8 patterns of 3 steps each whose last
two steps are the same diagonal vector; and of each of the five other piece
types the empty list. -/
theorem possibleMoves_spec (camp : Option Camp) :
    ((Classes.Piece.mk PieceType.HORSE camp).possibleMoves.length = 8
      ∧ ∀ m ∈ (Classes.Piece.mk PieceType.HORSE camp).possibleMoves, m.length = 2)
  ∧ ((Classes.Piece.mk PieceType.ELEPHANT camp).possibleMoves.length = 8
      ∧ ∀ m ∈ (Classes.Piece.mk PieceType.ELEPHANT camp).possibleMoves,
          m.length = 3 ∧ m.get? 1 = m.get? 2
            ∧ m.get? 2 ∈ [some ((1 : Int), (1 : Int)), some (1, -1), some (-1, 1), some (-1, -1)])
  ∧ (Classes.Piece.mk PieceType.GENERAL camp).possibleMoves = []
  ∧ (Classes.Piece.mk PieceType.GUARD camp).possibleMoves = []
  ∧ (Classes.Piece.mk PieceType.CHARIOT camp).possibleMoves = []
  ∧ (Classes.Piece.mk PieceType.CANNON camp).possibleMoves = []
  ∧ (Classes.Piece.mk PieceType.SOLDIER camp).possibleMoves = [] := by
  simp only [Classes.Piece.possibleMoves]
  refine ⟨⟨?_, ?_⟩, ⟨?_, ?_⟩, ?_, ?_, ?_, ?_, ?_⟩ <;> trivial

/-- C3: move with an empty origin fails (the assertion in Board.move); with
an occupied origin and a destination different from the origin it returns
the previous occupant of dest (None when dest was empty), empties the
origin, places the moved piece unchanged at dest, and leaves every other
cell as it was. -/
theorem move_spec (b : Board) (origin dest : Location) :
    (b.get origin.row origin.col = none → b.move origin dest = none)
  ∧ (∀ piece : Piece, b.get origin.row origin.col = some piece → origin ≠ dest →
      ∃ b2 : Board,
        b.move origin dest = some (b.get dest.row dest.col, b2)
        ∧ b2.get origin.row origin.col = none
        ∧ b2.get dest.row dest.col = some piece
        ∧ ∀ l : Location, l ≠ origin → l ≠ dest → b2.get l.row l.col = b.get l.row l.col) := by
  constructor
  · intro h
    simp [Board.move, h]
  · intro piece h hne
    refine ⟨(b.put dest.row dest.col piece).remove origin.row origin.col, ?_, ?_, ?_, ?_⟩
    · simp [Board.move, h]
    · exact get_remove_self _ _ _
    · have hdo : ¬(dest.row = origin.row ∧ dest.col = origin.col) := by
        have := (location_ne_iff dest origin).mp (Ne.symm hne)
        exact this
      rw [get_remove_ne _ _ _ _ _ hdo]
      exact get_put_self _ _ _ _
    · intro l hlo hld
      rw [get_remove_ne _ _ _ _ _ ((location_ne_iff l origin).mp hlo)]
      exact get_put_ne _ _ _ _ _ _ ((location_ne_iff l dest).mp hld)

/-- C3 witness: a CHO horse at (0, 0) moved to the empty square (1, 1) on an
otherwise empty board: the capture result is None, the origin is emptied,
the destination holds the horse, and all other squares stay empty. -/
theorem move_spec_witness :
    ∃ b2 : Board,
      ((Board.empty Formation.UNDECIDED Formation.UNDECIDED Camp.CHO).put 0 0
          ⟨PieceType.HORSE, some Camp.CHO⟩).move ⟨0, 0⟩ ⟨1, 1⟩
        = some (((Board.empty Formation.UNDECIDED Formation.UNDECIDED Camp.CHO).put 0 0
            ⟨PieceType.HORSE, some Camp.CHO⟩).get 1 1, b2)
      ∧ b2.get 0 0 = none
      ∧ b2.get 1 1 = some ⟨PieceType.HORSE, some Camp.CHO⟩
      ∧ ∀ l : Location, l ≠ ⟨0, 0⟩ → l ≠ ⟨1, 1⟩ →
          b2.get l.row l.col
            = ((Board.empty Formation.UNDECIDED Formation.UNDECIDED Camp.CHO).put 0 0
                ⟨PieceType.HORSE, some Camp.CHO⟩).get l.row l.col :=
  (move_spec _ ⟨0, 0⟩ ⟨1, 1⟩).2 ⟨PieceType.HORSE, some Camp.CHO⟩ (by decide) (by decide)

/-- C9: move with origin equal to dest on an occupied square returns the
piece at that square and leaves the square empty, removing the piece from
the board; every other square is untouched. -/
theorem move_same_square (b : Board) (s : Location) (piece : Piece)
    (h : b.get s.row s.col = some piece) :
    ∃ b2 : Board,
      b.move s s = some (some piece, b2)
      ∧ b2.get s.row s.col = none
      ∧ ∀ l : Location, l ≠ s → b2.get l.row l.col = b.get l.row l.col := by
  refine ⟨(b.put s.row s.col piece).remove s.row s.col, ?_, ?_, ?_⟩
  · simp [Board.move, h]
  · exact get_remove_self _ _ _
  · intro l hl
    rw [get_remove_ne _ _ _ _ _ ((location_ne_iff l s).mp hl)]
    exact get_put_ne _ _ _ _ _ _ ((location_ne_iff l s).mp hl)

/-- C9 witness: a HAN soldier at (2, 3); moving it onto its own square
captures it and leaves (2, 3) empty. -/
theorem move_same_square_witness :
    ∃ b2 : Board,
      ((Board.empty Formation.UNDECIDED Formation.UNDECIDED Camp.HAN).put 2 3
          ⟨PieceType.SOLDIER, some Camp.HAN⟩).move ⟨2, 3⟩ ⟨2, 3⟩
        = some (some ⟨PieceType.SOLDIER, some Camp.HAN⟩, b2)
      ∧ b2.get 2 3 = none
      ∧ ∀ l : Location, l ≠ ⟨2, 3⟩ →
          b2.get l.row l.col
            = ((Board.empty Formation.UNDECIDED Formation.UNDECIDED Camp.HAN).put 2 3
                ⟨PieceType.SOLDIER, some Camp.HAN⟩).get l.row l.col :=
  move_same_square _ ⟨2, 3⟩ ⟨PieceType.SOLDIER, some Camp.HAN⟩ (by decide)

/-- C1 counterexample: with cho_formation OUTER_ELEPHANT, han_formation
INNER_ELEPHANT and bottom camp CHO, same-piece-type 180-degree symmetry
fails: (0, 7) holds a HAN horse while the reflected square (9, 1) holds a
CHO elephant. -/
theorem full_board_symmetry_counterexample :
    ¬ ∀ (r : Fin 10) (c : Fin 9) (t : PieceType),
        (Board.full_board_from_formations Formation.OUTER_ELEPHANT Formation.INNER_ELEPHANT
              Camp.CHO).get r c = some ⟨t, some (otherCamp Camp.CHO)⟩
      ↔ (Board.full_board_from_formations Formation.OUTER_ELEPHANT Formation.INNER_ELEPHANT
              Camp.CHO).get (revRow r) (revCol c) = some ⟨t, some Camp.CHO⟩ := by
  decide

set_option maxHeartbeats 8000000 in
/-- C1 amended: for any pair of the four elephant formations and either
bottom camp, occupancy is 180-degree symmetric (a square holds a non-bottom
piece iff the reflected square holds a bottom piece); when the two camps
use the same formation the reflected pieces also share their piece type. -/
theorem full_board_symmetry (cho_formation han_formation : Formation) (player : Camp)
    (hcf : cho_formation ≠ Formation.UNDECIDED) (hhf : han_formation ≠ Formation.UNDECIDED)
    (hp : player = Camp.CHO ∨ player = Camp.HAN) :
    (∀ (r : Fin 10) (c : Fin 9),
        (∃ t, (Board.full_board_from_formations cho_formation han_formation player).get r c
            = some ⟨t, some (otherCamp player)⟩)
      ↔ (∃ t, (Board.full_board_from_formations cho_formation han_formation player).get
            (revRow r) (revCol c) = some ⟨t, some player⟩))
  ∧ (cho_formation = han_formation →
      ∀ (r : Fin 10) (c : Fin 9) (t : PieceType),
        (Board.full_board_from_formations cho_formation han_formation player).get r c
            = some ⟨t, some (otherCamp player)⟩
      ↔ (Board.full_board_from_formations cho_formation han_formation player).get
            (revRow r) (revCol c) = some ⟨t, some player⟩) := by
  rcases hp with rfl | rfl <;> cases cho_formation <;> cases han_formation <;>
    first
      | exact absurd rfl hcf
      | exact absurd rfl hhf
      | decide

/-- C1 witness: both camps in OUTER_ELEPHANT formation with CHO at bottom;
occupancy symmetry and same-piece-type symmetry both hold. -/
theorem full_board_symmetry_witness :
    (∀ (r : Fin 10) (c : Fin 9),
        (∃ t, (Board.full_board_from_formations Formation.OUTER_ELEPHANT
              Formation.OUTER_ELEPHANT Camp.CHO).get r c = some ⟨t, some (otherCamp Camp.CHO)⟩)
      ↔ (∃ t, (Board.full_board_from_formations Formation.OUTER_ELEPHANT
              Formation.OUTER_ELEPHANT Camp.CHO).get (revRow r) (revCol c)
            = some ⟨t, some Camp.CHO⟩))
  ∧ (Formation.OUTER_ELEPHANT = Formation.OUTER_ELEPHANT →
      ∀ (r : Fin 10) (c : Fin 9) (t : PieceType),
        (Board.full_board_from_formations Formation.OUTER_ELEPHANT
              Formation.OUTER_ELEPHANT Camp.CHO).get r c = some ⟨t, some (otherCamp Camp.CHO)⟩
      ↔ (Board.full_board_from_formations Formation.OUTER_ELEPHANT
              Formation.OUTER_ELEPHANT Camp.CHO).get (revRow r) (revCol c)
            = some ⟨t, some Camp.CHO⟩) :=
  full_board_symmetry Formation.OUTER_ELEPHANT Formation.OUTER_ELEPHANT Camp.CHO
    (by decide) (by decide) (Or.inl rfl)

theorem placeRow_ok : ∀ (chars : List Char) (b : Board) (row : Fin 10) (col : Nat),
    (∀ c ∈ chars, c.isDigit ∨ (pieceFromChar c).isSome) → col + rowCellSum chars ≤ 9 →
    (placeRow b row chars col).isOk = true := by
  intro chars
  induction chars with
  | nil =>
    intro b row col _ _
    simp [placeRow, Except.isOk, Except.toBool]
  | cons ch rest ih =>
    intro b row col hgood hsum
    by_cases hd : ch.isDigit
    · rw [placeRow, if_pos hd]
      apply ih
      · intro c hc
        exact hgood c (List.mem_cons_of_mem _ hc)
      · have := hsum
        rw [rowCellSum, if_pos hd] at this
        omega
    · have hp : (pieceFromChar ch).isSome := by
        rcases hgood ch (List.mem_cons_self _ _) with h | h
        · exact absurd h hd
        · exact h
      obtain ⟨pt, hpt⟩ := Option.isSome_iff_exists.mp hp
      have hsum9 : col + 1 + rowCellSum rest ≤ 9 := by
        have := hsum
        rw [rowCellSum, if_neg hd] at this
        omega
      have hcol : col < 9 := by omega
      rw [placeRow, if_neg hd, hpt]
      simp only [dif_pos hcol]
      apply ih
      · intro c hc
        exact hgood c (List.mem_cons_of_mem _ hc)
      · omega

theorem foldlM_except_isOk_false {α β ε : Type} (f : β → α → Except ε β) :
    ∀ (L : List α) (b : β) (x : α), x ∈ L → (∀ b2 : β, (f b2 x).isOk = false) →
    (L.foldlM f b).isOk = false := by
  intro L
  induction L with
  | nil =>
    intro b x hx
    exact absurd hx (List.not_mem_nil _)
  | cons y L ih =>
    intro b x hx hbad
    rw [List.foldlM_cons]
    rcases List.mem_cons.mp hx with rfl | hmem
    · cases hfy : f b x with
      | error e => simp [Bind.bind, Except.bind, hfy, Except.isOk, Except.toBool]
      | ok b2 =>
        have := hbad b
        rw [hfy] at this
        simp [Except.isOk, Except.toBool] at this
    · cases hfy : f b y with
      | error e => simp [Bind.bind, Except.bind, hfy, Except.isOk, Except.toBool]
      | ok b2 =>
        simp only [Bind.bind, Except.bind, hfy]
        exact ih b2 x hmem hbad

theorem foldlM_except_isOk_true {α β ε : Type} (f : β → α → Except ε β) :
    ∀ (L : List α) (b : β), (∀ x ∈ L, ∀ b2 : β, (f b2 x).isOk = true) →
    (L.foldlM f b).isOk = true := by
  intro L
  induction L with
  | nil =>
    intro b _
    simp [List.foldlM, Except.isOk, Except.toBool, pure, Except.pure]
  | cons y L ih =>
    intro b hgood
    rw [List.foldlM_cons]
    have := hgood y (List.mem_cons_self _ _) b
    cases hfy : f b y with
    | error e =>
      rw [hfy] at this
      simp [Except.isOk, Except.toBool] at this
    | ok b2 =>
      simp only [Bind.bind, Except.bind, hfy]
      exact ih b2 (fun x hx => hgood x (List.mem_cons_of_mem _ hx))

/-- C2 amended: the FEN import raises no error when the board portion has at
least 10 slash-separated rows whose first 10 rows each consist of digits and
recognized piece letters and have cells summing to at most 9; it always
raises when the board portion has fewer than 10 rows. There is no check
that a row sums to exactly 9: short rows are accepted, and the raised
errors are plain IndexError/KeyError, not a MalformedNotation error. -/
theorem board_from_FEN_shape (cho_formation han_formation : Formation) (player : Camp)
    (fen : String) :
    ((boardRows fen).length < 10 → (Board.board_from_FEN cho_formation han_formation
        fen player).isOk = false)
  ∧ (10 ≤ (boardRows fen).length →
     (∀ i : Fin 10, ((boardRows fen).get? i.val).all goodRowB = true) →
     (Board.board_from_FEN cho_formation han_formation fen player).isOk = true) := by
  unfold Board.board_from_FEN boardRows
  cases hft : firstToken fen.toList with
  | none =>
    constructor
    · intro _
      simp [Except.isOk, Except.toBool]
    · intro h10 _
      simp at h10
  | some tok =>
    constructor
    · intro hlen
      simp only [List.length] at hlen
      apply foldlM_except_isOk_false _ _ _ (⟨(splitOnChar '/' tok).length, hlen⟩ : Fin 10)
      · exact List.mem_finRange _
      · intro b2
        have hnone : (splitOnChar '/' tok).get? (splitOnChar '/' tok).length = none :=
          List.get?_eq_none.mpr (le_refl _)
        simp [hnone, Except.isOk, Except.toBool]
    · intro hlen hgood
      apply foldlM_except_isOk_true
      intro r _ b2
      have hlt : r.val < (splitOnChar '/' tok).length := lt_of_lt_of_le r.isLt hlen
      have hsome : (splitOnChar '/' tok).get? r.val
          = some ((splitOnChar '/' tok).get ⟨r.val, hlt⟩) := List.get?_eq_get hlt
      have hg := hgood r
      rw [hsome] at hg
      simp only [Option.all] at hg
      rw [goodRowB, Bool.and_eq_true] at hg
      obtain ⟨hall, hsum⟩ := hg
      rw [hsome]
      apply placeRow_ok
      · intro c hc
        have h2 : c.isDigit = true ∨ (pieceFromChar c).isSome = true := by
          simpa using List.all_eq_true.mp hall c hc
        exact h2
      · have := of_decide_eq_true hsum
        omega

/-- C2 witness: a 10-row FEN string whose rows each sum to 9 parses without
any error. -/
theorem board_from_FEN_shape_witness :
    (Board.board_from_FEN Formation.OUTER_ELEPHANT Formation.OUTER_ELEPHANT
        "9/9/9/9/9/9/9/9/9/9" Camp.CHO).isOk = true :=
  (board_from_FEN_shape Formation.OUTER_ELEPHANT Formation.OUTER_ELEPHANT Camp.CHO
    "9/9/9/9/9/9/9/9/9/9").2 (by decide) (by decide)

/-- C2 counterexample: a 10-row string whose first row sums to 8 cells
parses without raising, contradicting the claim that a row not summing to
exactly 9 always raises a MalformedNotation error. -/
theorem board_from_FEN_row_sum_counterexample :
    (boardRows "8/9/9/9/9/9/9/9/9/9").length = 10
  ∧ (∃ row ∈ boardRows "8/9/9/9/9/9/9/9/9/9", rowCellSum row = 8)
  ∧ (Board.board_from_FEN Formation.OUTER_ELEPHANT Formation.OUTER_ELEPHANT
        "8/9/9/9/9/9/9/9/9/9" Camp.CHO).isOk = true := by
  decide


theorem checkStep_snd (b : Board) (camp : Camp) (acc : Option Location × List Location)
    (loc : Location) :
    (checkStep b camp acc loc).2 = acc.2 ++ (if enemyAt b camp loc then [loc] else []) := by
  unfold checkStep enemyAt
  cases hg : b.get loc.row loc.col with
  | none => simp
  | some p =>
    by_cases hc : p.camp = some camp
    · simp [hc]
      by_cases ht : p.pieceType = PieceType.GENERAL <;> simp [ht]
    · simp [hc]

theorem checkStep_fst_of_not_gen (b : Board) (camp : Camp)
    (acc : Option Location × List Location) (loc : Location)
    (h : campGeneralAt b camp loc = false) :
    (checkStep b camp acc loc).1 = acc.1 := by
  unfold checkStep
  unfold campGeneralAt at h
  cases hg : b.get loc.row loc.col with
  | none => simp
  | some p =>
    rw [hg] at h
    by_cases hc : p.camp = some camp
    · simp [hc] at h ⊢
      simp [h]
    · simp [hc]

theorem checkStep_fst_of_gen (b : Board) (camp : Camp)
    (acc : Option Location × List Location) (loc : Location)
    (h : campGeneralAt b camp loc = true) :
    (checkStep b camp acc loc).1 = some loc := by
  unfold checkStep
  unfold campGeneralAt at h
  cases hg : b.get loc.row loc.col with
  | none =>
    rw [hg] at h
    simp at h
  | some p =>
    rw [hg] at h
    simp at h
    obtain ⟨hc, ht⟩ := h
    simp [hc, ht]

theorem foldl_checkStep_snd (b : Board) (camp : Camp) :
    ∀ (L : List Location) (acc : Option Location × List Location),
      (L.foldl (checkStep b camp) acc).2 = acc.2 ++ L.filter (enemyAt b camp) := by
  intro L
  induction L with
  | nil => intro acc; simp
  | cons x L ih =>
    intro acc
    rw [List.foldl_cons, ih, checkStep_snd]
    by_cases he : enemyAt b camp x <;> simp [he, List.filter_cons]

theorem foldl_checkStep_fst_nogen (b : Board) (camp : Camp) :
    ∀ (L : List Location) (acc : Option Location × List Location),
      (∀ l ∈ L, campGeneralAt b camp l = false) →
      (L.foldl (checkStep b camp) acc).1 = acc.1 := by
  intro L
  induction L with
  | nil => intro acc _; rfl
  | cons x L ih =>
    intro acc hng
    rw [List.foldl_cons, ih _ (fun l hl => hng l (List.mem_cons_of_mem _ hl)),
      checkStep_fst_of_not_gen _ _ _ _ (hng x (List.mem_cons_self _ _))]

theorem foldl_checkStep_fst_found (b : Board) (camp : Camp) (gloc : Location) :
    ∀ (L : List Location) (acc : Option Location × List Location),
      gloc ∈ L → campGeneralAt b camp gloc = true →
      (∀ l ∈ L, campGeneralAt b camp l = true → l = gloc) →
      (L.foldl (checkStep b camp) acc).1 = some gloc := by
  intro L
  induction L with
  | nil => intro acc h; exact absurd h (List.not_mem_nil _)
  | cons x L ih =>
    intro acc hmem hgen huniq
    rw [List.foldl_cons]
    by_cases hL : gloc ∈ L
    · exact ih _ hL hgen (fun l hl => huniq l (List.mem_cons_of_mem _ hl))
    · have hx : x = gloc := by
        rcases List.mem_cons.mp hmem with h | h
        · exact h.symm
        · exact absurd h hL
      subst hx
      have hng : ∀ l ∈ L, campGeneralAt b camp l = false := by
        intro l hl
        by_contra hcon
        have : l = x := huniq l (List.mem_cons_of_mem _ hl) (by
          cases h : campGeneralAt b camp l
          · exact absurd h hcon
          · rfl)
        subst this
        exact hL hl
      rw [foldl_checkStep_fst_nogen _ _ _ _ hng, checkStep_fst_of_gen _ _ _ _ hgen]

theorem mem_allLocations (l : Location) : l ∈ allLocations := by
  unfold allLocations
  rw [List.mem_flatMap]
  refine ⟨l.row, List.mem_finRange _, ?_⟩
  rw [List.mem_map]
  exact ⟨l.col, List.mem_finRange _, rfl⟩

/-- C5: whenever the board holds exactly one piece of the given camp whose
type is GENERAL, is_check returns its coordinate together with the list of
coordinates of every piece whose camp differs from the given camp. -/
theorem is_check_spec (b : Board) (camp : Camp) (gloc : Location) (gpiece : Piece)
    (hg : b.get gloc.row gloc.col = some gpiece)
    (hgc : gpiece.camp = some camp) (hgt : gpiece.pieceType = PieceType.GENERAL)
    (huniq : ∀ (l : Location) (p : Piece), b.get l.row l.col = some p →
        p.camp = some camp → p.pieceType = PieceType.GENERAL → l = gloc) :
    (b.is_check camp).1 = some gloc
  ∧ ∀ l : Location, l ∈ (b.is_check camp).2 ↔
      ∃ p : Piece, b.get l.row l.col = some p ∧ p.camp ≠ some camp := by
  have hgen : campGeneralAt b camp gloc = true := by
    unfold campGeneralAt
    rw [hg]
    simp [hgc, hgt]
  constructor
  · apply foldl_checkStep_fst_found b camp gloc allLocations _ (mem_allLocations _) hgen
    intro l hl hgl
    unfold campGeneralAt at hgl
    cases hp : b.get l.row l.col with
    | none => rw [hp] at hgl; simp at hgl
    | some p =>
      rw [hp] at hgl
      simp at hgl
      exact huniq l p hp hgl.1 hgl.2
  · intro l
    unfold Board.is_check
    rw [foldl_checkStep_snd]
    simp only [List.nil_append, List.mem_filter]
    constructor
    · rintro ⟨_, he⟩
      unfold enemyAt at he
      cases hp : b.get l.row l.col with
      | none => rw [hp] at he; simp at he
      | some p =>
        rw [hp] at he
        simp at he
        exact ⟨p, rfl, he⟩
    · rintro ⟨p, hp, hne⟩
      refine ⟨mem_allLocations _, ?_⟩
      unfold enemyAt
      rw [hp]
      simpa using hne

set_option maxRecDepth 8192 in
/-- C5 witness: a board holding only the CHO general at (0, 0) and a HAN
soldier at (1, 1): is_check for CHO finds the general at (0, 0) and the
enemy list holds exactly the squares occupied by non-CHO pieces. -/
theorem is_check_spec_witness :
    ((((Board.empty Formation.UNDECIDED Formation.UNDECIDED Camp.CHO).put 0 0
        ⟨PieceType.GENERAL, some Camp.CHO⟩).put 1 1
        ⟨PieceType.SOLDIER, some Camp.HAN⟩).is_check Camp.CHO).1 = some ⟨0, 0⟩
  ∧ ∀ l : Location,
      l ∈ ((((Board.empty Formation.UNDECIDED Formation.UNDECIDED Camp.CHO).put 0 0
        ⟨PieceType.GENERAL, some Camp.CHO⟩).put 1 1
        ⟨PieceType.SOLDIER, some Camp.HAN⟩).is_check Camp.CHO).2 ↔
      ∃ p : Piece, (((Board.empty Formation.UNDECIDED Formation.UNDECIDED Camp.CHO).put 0 0
        ⟨PieceType.GENERAL, some Camp.CHO⟩).put 1 1
        ⟨PieceType.SOLDIER, some Camp.HAN⟩).get l.row l.col = some p ∧ p.camp ≠ some Camp.CHO :=
  is_check_spec _ Camp.CHO ⟨0, 0⟩ ⟨PieceType.GENERAL, some Camp.CHO⟩ (by decide) rfl rfl
    (by decide)

/-- C6 counterexample: with cho_formation OUTER_ELEPHANT, han_formation
INNER_ELEPHANT and bottom camp CHO, the assembled board does not match the
claimed placements: (0, 7) holds a HAN horse, not a HAN elephant, and
(0, 6) holds a HAN elephant, not a HAN horse. -/
theorem formation_scenario_counterexample :
    ¬ ((Board.full_board_from_formations Formation.OUTER_ELEPHANT Formation.INNER_ELEPHANT
          Camp.CHO).get 9 1 = some ⟨PieceType.ELEPHANT, some Camp.CHO⟩
      ∧ (Board.full_board_from_formations Formation.OUTER_ELEPHANT Formation.INNER_ELEPHANT
          Camp.CHO).get 0 7 = some ⟨PieceType.ELEPHANT, some Camp.HAN⟩
      ∧ (Board.full_board_from_formations Formation.OUTER_ELEPHANT Formation.INNER_ELEPHANT
          Camp.CHO).get 0 6 = some ⟨PieceType.HORSE, some Camp.HAN⟩
      ∧ (Board.full_board_from_formations Formation.OUTER_ELEPHANT Formation.INNER_ELEPHANT
          Camp.CHO).get 0 1 = some ⟨PieceType.HORSE, some Camp.HAN⟩) := by
  decide

/-- C6 amended: assembling with cho_formation OUTER_ELEPHANT, han_formation
INNER_ELEPHANT and bottom camp CHO places a CHO elephant at (9, 1), HAN
horses at (0, 7) and (0, 1), and HAN elephants at (0, 6) and (0, 2). -/
theorem formation_scenario :
    (Board.full_board_from_formations Formation.OUTER_ELEPHANT Formation.INNER_ELEPHANT
        Camp.CHO).get 9 1 = some ⟨PieceType.ELEPHANT, some Camp.CHO⟩
  ∧ (Board.full_board_from_formations Formation.OUTER_ELEPHANT Formation.INNER_ELEPHANT
        Camp.CHO).get 0 7 = some ⟨PieceType.HORSE, some Camp.HAN⟩
  ∧ (Board.full_board_from_formations Formation.OUTER_ELEPHANT Formation.INNER_ELEPHANT
        Camp.CHO).get 0 1 = some ⟨PieceType.HORSE, some Camp.HAN⟩
  ∧ (Board.full_board_from_formations Formation.OUTER_ELEPHANT Formation.INNER_ELEPHANT
        Camp.CHO).get 0 6 = some ⟨PieceType.ELEPHANT, some Camp.HAN⟩
  ∧ (Board.full_board_from_formations Formation.OUTER_ELEPHANT Formation.INNER_ELEPHANT
        Camp.CHO).get 0 2 = some ⟨PieceType.ELEPHANT, some Camp.HAN⟩ := by
  decide

/-- C8 amended: a copy shares its piece references with the original
(ndarray.copy is shallow). Grid-rewriting mutations of the copy (put,
remove, move, merge, flip) leave every observed cell of the original
unchanged, but mark_camp on the copy mutates the shared pieces in place:
each occupied cell of the original keeps its piece type but its observed
camp becomes the marked camp. -/
theorem copy_mutation_frame (h : RefModel.Heap) (g : RefModel.RefGrid) :
    (∀ (row : Fin 10) (col : Fin 9) (id : Nat) (r : Fin 10) (c : Fin 9),
        RefModel.observe (RefModel.putRef h (RefModel.copyOf g) row col id).1 g r c
          = RefModel.observe h g r c)
  ∧ (∀ (row : Fin 10) (col : Fin 9) (r : Fin 10) (c : Fin 9),
        RefModel.observe (RefModel.removeRef h (RefModel.copyOf g) row col).1 g r c
          = RefModel.observe h g r c)
  ∧ (∀ (origin dest : Location) (res : Option Nat × (RefModel.Heap × RefModel.RefGrid)),
        RefModel.moveRef h (RefModel.copyOf g) origin dest = some res →
        ∀ (r : Fin 10) (c : Fin 9), RefModel.observe res.2.1 g r c = RefModel.observe h g r c)
  ∧ (∀ (other : RefModel.RefGrid) (r : Fin 10) (c : Fin 9),
        RefModel.observe (RefModel.mergeRef h (RefModel.copyOf g) other).1 g r c
          = RefModel.observe h g r c)
  ∧ (∀ (r : Fin 10) (c : Fin 9),
        RefModel.observe (RefModel.flipRef h (RefModel.copyOf g)).1 g r c
          = RefModel.observe h g r c)
  ∧ (∀ (camp : Camp) (r : Fin 10) (c : Fin 9),
        RefModel.observe (RefModel.markCampRef h (RefModel.copyOf g) camp).1 g r c
          = (RefModel.observe h g r c).map fun p => { p with camp := some camp }) := by
  refine ⟨fun _ _ _ _ _ => rfl, fun _ _ _ _ => rfl, ?_, fun _ _ _ => rfl, fun _ _ => rfl, ?_⟩
  · intro origin dest res hres r c
    unfold RefModel.moveRef at hres
    cases hg : RefModel.copyOf g origin.row origin.col with
    | none =>
      rw [hg] at hres
      exact absurd hres (by simp)
    | some id =>
      rw [hg] at hres
      simp only [Option.some.injEq] at hres
      rw [← hres]
  · intro camp r c
    unfold RefModel.observe RefModel.markCampRef
    cases hg : g r c with
    | none => simp
    | some id =>
      have hex : ∃ (r0 : Fin 10) (c0 : Fin 9), RefModel.copyOf g r0 c0 = some id := ⟨r, c, hg⟩
      simp [hex]

/-- C8 counterexample: a board holding one CHO horse at (0, 0); mark_camp
with HAN applied to a copy changes the camp observed at (0, 0) of the
original, so a mutation of the copy does change a cell content of the
original. -/
theorem copy_mark_counterexample :
    RefModel.observe RefModel.sampleHeap RefModel.sampleGrid 0 0
      = some ⟨PieceType.HORSE, some Camp.CHO⟩
  ∧ RefModel.observe
      (RefModel.markCampRef RefModel.sampleHeap (RefModel.copyOf RefModel.sampleGrid)
        Camp.HAN).1 RefModel.sampleGrid 0 0
      = some ⟨PieceType.HORSE, some Camp.HAN⟩
  ∧ RefModel.observe
      (RefModel.markCampRef RefModel.sampleHeap (RefModel.copyOf RefModel.sampleGrid)
        Camp.HAN).1 RefModel.sampleGrid 0 0
      ≠ RefModel.observe RefModel.sampleHeap RefModel.sampleGrid 0 0 := by
  refine ⟨rfl, ?_, ?_⟩ <;> decide

/-- C8 witness: flipping the copy of the sample board leaves the observed
occupant of (0, 0) of the original unchanged. -/
theorem copy_frame_witness :
    RefModel.observe
      (RefModel.flipRef RefModel.sampleHeap (RefModel.copyOf RefModel.sampleGrid)).1
      RefModel.sampleGrid 0 0
      = RefModel.observe RefModel.sampleHeap RefModel.sampleGrid 0 0 :=
  (copy_mutation_frame RefModel.sampleHeap RefModel.sampleGrid).2.2.2.2.1 0 0

end Janggi
